import Mathlib

/-!
Verification development for giternity (src/giternity.py), a tool that
mirrors git repositories and writes cgit metadata.

The Python source is shallowly embedded below.  Python dictionaries are
association lists of `PyVal`s, subscripting that can raise `KeyError` is
`dictGet` in an `Except PyErr` monad, and the side-effecting executor is
modelled as a function producing the list of effects it would perform.
External collaborators (the git executable, the GitHub HTTP API, the
filesystem) are oracles passed in as explicit parameters.
-/

namespace Giternity

/-- A Python value as it occurs in the JSON descriptors and TOML records the
program manipulates: `None`, a string, or a boolean. -/
inductive PyVal where
  | vnone
  | vstr (s : String)
  | vbool (b : Bool)
deriving DecidableEq, Repr

/-- Python exception classes raised by the embedded code. -/
inductive PyErr where
  | keyError (k : String)
  | typeError (msg : String)
  | attributeError (name : String)
  | valueError (msg : String)
  | osError (msg : String)
deriving DecidableEq, Repr

/-- Python truthiness of a `PyVal` (`None` and `""` are falsy). -/
def PyVal.truthy : PyVal → Bool
  | .vnone => false
  | .vstr s => s != ""
  | .vbool b => b

/-- Python `str()` / `"{}".format` conversion of a `PyVal`. -/
def PyVal.toStr : PyVal → String
  | .vnone => "None"
  | .vstr s => s
  | .vbool b => if b then "True" else "False"

/-- A Python dict with string keys, in insertion order. -/
abbrev PyDict := List (String × PyVal)

/-- Python subscripting `d[k]`: the value, or a `KeyError`. -/
def dictGet (d : PyDict) (k : String) : Except PyErr PyVal :=
  match d.find? (fun kv => kv.1 == k) with
  | some kv => .ok kv.2
  | none => .error (.keyError k)

/-- Whether key `k` is present in `d` (Python `k in d`). -/
def hasKey (d : PyDict) (k : String) : Bool :=
  (d.find? (fun kv => kv.1 == k)).isSome

/-- Python dict assignment `d[k] = v`: update in place, else append. -/
def dictSet (d : PyDict) (k : String) (v : PyVal) : PyDict :=
  if hasKey d k then d.map (fun kv => if kv.1 == k then (k, v) else kv)
  else d ++ [(k, v)]

/-- Python `+` between a `str` and a `PyVal` (a `TypeError` unless the value
is a string). -/
def pyAddStr (a : String) : PyVal → Except PyErr String
  | .vstr s => .ok (a ++ s)
  | _ => .error (.typeError "can only concatenate str to str")

/-- Replacement of every leftmost, non-overlapping occurrence of `pat` by
`rep`, by structural recursion on a fuel that the scan never exhausts
(one fuel unit per consumed character): models Python `str.replace`. -/
def replaceFuel (pat rep : List Char) : Nat → List Char → List Char
  | 0, s => s
  | _, [] => []
  | Nat.succ fuel, c :: rest =>
    if pat ≠ [] ∧ pat.isPrefixOf (c :: rest) then
      rep ++ replaceFuel pat rep fuel (List.drop (pat.length - 1) rest)
    else c :: replaceFuel pat rep fuel rest

/-- Python `s.replace(pat, rep)`. -/
def pyReplace (s pat rep : String) : String :=
  ⟨replaceFuel pat.data rep.data s.data.length s.data⟩

/-- Python `value.replace(chr(10), str())` on a dict value: strings support
`.replace`, everything else raises `AttributeError`. -/
def pyReplaceNewline : PyVal → Except PyErr String
  | .vstr s => .ok (pyReplace s "\n" "")
  | _ => .error (.attributeError "replace")

/-- Truthiness of the configured `cgit_url` (absent or empty is falsy). -/
def cgitTruthy : Option String → Bool
  | none => false
  | some s => s != ""

/-- The configured `cgit_url` as the string Python concatenates with
(`self.cgit_url + ...` is reached only when it is truthy). -/
def cgitStr : Option String → String
  | none => ""
  | some s => s

/-- The `clone_url` line computed at the top of `GitHub.repo_to_cgitrc`:
`<prefix><full_name> <clone_url>` when a cgit URL is configured (truthy),
the clone URL alone otherwise. -/
def cloneUrlLine (cgit_url : Option String) (data : PyDict) : Except PyErr String :=
  if cgitTruthy cgit_url then
    match dictGet data "full_name" with
    | .error e => .error e
    | .ok fnv =>
      match pyAddStr (cgitStr cgit_url) fnv with
      | .error e => .error e
      | .ok local_url =>
        match dictGet data "clone_url" with
        | .error e => .error e
        | .ok cuv => .ok ("clone-url=" ++ local_url ++ " " ++ cuv.toStr ++ "\n")
  else
    match dictGet data "clone_url" with
    | .error e => .error e
    | .ok cuv => .ok ("clone-url=" ++ cuv.toStr ++ "\n")

/-- The remainder of `GitHub.repo_to_cgitrc` after the clone line: the
`desc` line (placeholder when falsy, newlines stripped otherwise), the
optional `homepage` line prepended to the list, the `name` line, and the
final join. -/
def cgitrcTail (data : PyDict) (clone_url : String) : Except PyErr String :=
  match dictGet data "description" with
  | .error e => .error e
  | .ok descv =>
    let descStep : Except PyErr String :=
      if descv.truthy then
        match pyReplaceNewline descv with
        | .error e => .error e
        | .ok ds => .ok ("desc=" ++ ds ++ "\n")
      else .ok "desc=Mysterious Project\n"
    match descStep with
    | .error e => .error e
    | .ok desc =>
      match dictGet data "homepage" with
      | .error e => .error e
      | .ok homev =>
        match dictGet data "name" with
        | .error e => .error e
        | .ok namev =>
          let cgitrc : List String :=
            (if homev.truthy then ["homepage=" ++ homev.toStr ++ "\n"] else []) ++
              [clone_url, desc, "name=" ++ namev.toStr ++ "\n"]
          .ok (String.join cgitrc)

/-- Embedding of `GitHub.repo_to_cgitrc(self, data)`: renders one repository
descriptor dict into the cgitrc metadata text, propagating the exceptions
Python subscripting and method calls would raise. -/
def repo_to_cgitrc (cgit_url : Option String) (data : PyDict) : Except PyErr String :=
  match cloneUrlLine cgit_url data with
  | .error e => .error e
  | .ok clone_url => cgitrcTail data clone_url

/-- A well-formed repository descriptor, as delivered by the GitHub API:
all five rendered keys present, `description` and `homepage` nullable. -/
structure Descriptor where
  full_name : String
  name : String
  clone_url : String
  description : Option String
  homepage : Option String
  fork : Bool
deriving DecidableEq, Repr

/-- An optional string as the JSON value under a dict key. -/
def optVal : Option String → PyVal
  | none => .vnone
  | some s => .vstr s

/-- The dict a `Descriptor` corresponds to. -/
def Descriptor.toDict (d : Descriptor) : PyDict :=
  [("full_name", .vstr d.full_name), ("name", .vstr d.name),
   ("clone_url", .vstr d.clone_url), ("description", optVal d.description),
   ("homepage", optVal d.homepage), ("fork", .vbool d.fork)]

/-- The metadata record as the specification words it: newline-terminated
`key=value` lines in the order homepage (only if present and nonempty),
clone-url, desc, name; `clone-url` carries `<prefix><full_name> <clone_url>`
when a browse prefix is configured and `<clone_url>` alone otherwise; `desc`
falls back to the fixed placeholder and has embedded newlines removed. -/
def renderSpec (d : Descriptor) (cgit_url : Option String) : String :=
  let homepageLine : String :=
    match d.homepage with
    | some h => if h != "" then "homepage=" ++ h ++ "\n" else ""
    | none => ""
  let cloneLine : String :=
    match cgit_url with
    | some p =>
      if p != "" then "clone-url=" ++ p ++ d.full_name ++ " " ++ d.clone_url ++ "\n"
      else "clone-url=" ++ d.clone_url ++ "\n"
    | none => "clone-url=" ++ d.clone_url ++ "\n"
  let descLine : String :=
    match d.description with
    | some s => if s != "" then "desc=" ++ pyReplace s "\n" "" ++ "\n"
                else "desc=Mysterious Project\n"
    | none => "desc=Mysterious Project\n"
  homepageLine ++ cloneLine ++ descLine ++ ("name=" ++ d.name ++ "\n")

/-! ## Remote catalog pagination (`GitHub.get_repos` / `get_repos_page`)

`get_repos_page` is abstracted by an oracle mapping a page number to the
pair the method returns: the page's JSON list and the next-page number
extracted from the `Link` header (`none` models the Python falsy `False`;
a Python `0` is falsy as well, handled in the loop condition).  The
unbounded `while next_page` loop is embedded with explicit fuel: `none`
as overall result means the loop has not finished within `fuel` page
fetches. -/

/-- An upstream paging oracle: page number to (page data, next-page signal). -/
abbrev PageFn := Nat → List PyDict × Option Nat

/-- Embedding of the `while next_page:` loop body of `GitHub.get_repos`.
Returns `none` when `fuel` page fetches did not reach a falsy cursor. -/
def getReposLoop (pages : PageFn) (fuel : Nat) (data : List PyDict)
    (next : Option Nat) : Option (List PyDict) :=
  match next with
  | none => some data
  | some p =>
    if p = 0 then some data
    else
      match fuel with
      | 0 => none
      | Nat.succ f =>
        let pr := pages p
        getReposLoop pages f (data ++ pr.1) pr.2

/-- Embedding of the list comprehension `[r for r in data if not r["fork"]]`:
keeps the dicts whose `fork` entry is falsy, raising `KeyError` where Python
would. -/
def filterNotFork : List PyDict → Except PyErr (List PyDict)
  | [] => .ok []
  | r :: rest =>
    match dictGet r "fork" with
    | .error e => .error e
    | .ok v =>
      match filterNotFork rest with
      | .error e => .error e
      | .ok l => .ok (if v.truthy then l else r :: l)

/-- Embedding of `GitHub.get_repos`: fetch page 1, follow the continuation
cursor while it is truthy, then filter out forks.  `none` models
non-termination within `fuel` page fetches. -/
def get_repos (pages : PageFn) (fuel : Nat) : Option (Except PyErr (List PyDict)) :=
  let pr := pages 1
  match getReposLoop pages fuel pr.1 pr.2 with
  | none => none
  | some data => some (filterNotFork data)

/-- The continuation chain the loop follows after page 1: the list of page
numbers fetched inside the `while`, `none` when a falsy cursor is not
reached within `fuel` steps. -/
def visitedLoop (pages : PageFn) (fuel : Nat) (next : Option Nat) : Option (List Nat) :=
  match next with
  | none => some []
  | some p =>
    if p = 0 then some []
    else
      match fuel with
      | 0 => none
      | Nat.succ f => (visitedLoop pages f (pages p).2).map (fun l => p :: l)

/-- All pages `get_repos` fetches: page 1 followed by the continuation chain. -/
def visitedPages (pages : PageFn) (fuel : Nat) : Option (List Nat) :=
  (visitedLoop pages fuel (pages 1).2).map (fun l => 1 :: l)

/-- The truthiness of a dict's `fork` entry (`false` when absent, where
Python instead raises; used only under a presence hypothesis). -/
def forkTruthy (r : PyDict) : Bool :=
  match dictGet r "fork" with
  | .ok v => v.truthy
  | .error _ => false

/-- A paging oracle whose continuation signal is cyclic: every response
announces page 1 as the next page. -/
def cyclicPages : PageFn := fun _ => ([], some 1)

/-! ## Local path derivation -/

/-- Whether a string starts with the path separator. -/
def startsWithSep (s : String) : Bool := s.data.head? == some '/'

/-- Whether a string ends with the path separator. -/
def endsWithSep (s : String) : Bool := s.data.getLast? == some '/'

/-- Embedding of `os.path.join(a, b)` (posixpath, two arguments). -/
def osPathJoin (a b : String) : String :=
  if startsWithSep b then b
  else if a == "" || endsWithSep a then a ++ b
  else a ++ "/" ++ b

/-- The local path of an ad-hoc configured repository:
`"{}{}{}".format(git_data_path, repo['full_name'], checkout_suffix)` —
raw string concatenation. -/
def adhocLocalPath (git_data_path full_name suffix : String) : String :=
  git_data_path ++ full_name ++ suffix

/-- The local path of a catalog-sourced repository:
`join(git_data_path, "{}{}".format(full_name, checkout_suffix))`. -/
def catalogLocalPath (git_data_path full_name suffix : String) : String :=
  osPathJoin git_data_path (full_name ++ suffix)

/-- Directory containment: `p` lies under directory `d`. -/
def underDir (d p : String) : Bool :=
  (if endsWithSep d then d else d ++ "/").data.isPrefixOf p.data

/-! ## Archive planner (`main`, planning phase) -/

/-- One archive plan entry: the tuple `(repo, metadata, url, path)` that
`main` appends to `archive_plan`. -/
structure PlanEntry where
  repo : PyDict
  metadata : String
  url : PyVal
  path : String
deriving DecidableEq, Repr

/-- The GitHub catalog as an oracle: `getRepo owner name` is the JSON of
`GET /repos/{owner}/{name}`, `userPages user page` the page data and
next-page signal of `GET /users/{user}/repos`. -/
structure ApiOracle where
  getRepo : String → String → PyDict
  userPages : String → PageFn

/-- Planning one ad-hoc `[[repos]]` record: set `full_name`, derive the
path by concatenation, read `clone_url`, render the metadata. -/
def planAdhocOne (gdp suffix : String) (cgit : Option String) (repo : PyDict) :
    Except PyErr PlanEntry :=
  match dictGet repo "owner" with
  | .error e => .error e
  | .ok ownerv =>
    match dictGet repo "name" with
    | .error e => .error e
    | .ok namev =>
      let fn := ownerv.toStr ++ "/" ++ namev.toStr
      let repo' := dictSet repo "full_name" (.vstr fn)
      let path := adhocLocalPath gdp fn suffix
      match dictGet repo' "clone_url" with
      | .error e => .error e
      | .ok urlv =>
        match repo_to_cgitrc cgit repo' with
        | .error e => .error e
        | .ok metadata => .ok ⟨repo', metadata, urlv, path⟩

/-- Planning the whole ad-hoc `repos` list; the first exception aborts. -/
def planAdhoc (gdp suffix : String) (cgit : Option String) :
    List PyDict → Except PyErr (List PlanEntry)
  | [] => .ok []
  | r :: rest =>
    match planAdhocOne gdp suffix cgit r with
    | .error e => .error e
    | .ok e =>
      match planAdhoc gdp suffix cgit rest with
      | .error e => .error e
      | .ok l => .ok (e :: l)

/-- Planning the descriptors a group expansion returned: one entry per
descriptor, path from `join` on the descriptor's `full_name`. -/
def planGroupRepos (gdp suffix : String) (cgit : Option String) :
    List PyDict → Except PyErr (List PlanEntry)
  | [] => .ok []
  | repo :: rest =>
    match dictGet repo "full_name" with
    | .error e => .error e
    | .ok fnv =>
      let path := catalogLocalPath gdp fnv.toStr suffix
      match dictGet repo "clone_url" with
      | .error e => .error e
      | .ok urlv =>
        match repo_to_cgitrc cgit repo with
        | .error e => .error e
        | .ok metadata =>
          match planGroupRepos gdp suffix cgit rest with
          | .error e => .error e
          | .ok l => .ok (⟨repo, metadata, urlv, path⟩ :: l)

/-- Planning one `github.repositories` address.  An address containing `/`
is a single repository (path from `join`, descriptor from `get_repo`);
otherwise it is a group expanded through `get_repos`.  `none` models
non-terminating pagination. -/
def planGithubAddr (api : ApiOracle) (fuel : Nat) (gdp suffix : String)
    (cgit : Option String) (addr : String) : Option (Except PyErr (List PlanEntry)) :=
  if addr.contains '/' then
    let path := catalogLocalPath gdp addr suffix
    match addr.splitOn "/" with
    | [owner, name] =>
      let url := "https://github.com/" ++ owner ++ "/" ++ name ++ ".git"
      let repo := api.getRepo owner name
      match repo_to_cgitrc cgit repo with
      | .error e => some (.error e)
      | .ok metadata => some (.ok [⟨repo, metadata, .vstr url, path⟩])
    | _ => some (.error (.valueError "not enough values to unpack"))
  else
    match get_repos (api.userPages addr) fuel with
    | none => none
    | some (.error e) => some (.error e)
    | some (.ok repos) => some (planGroupRepos gdp suffix cgit repos)

/-- Planning the `github.repositories` list in order. -/
def planGithubList (api : ApiOracle) (fuel : Nat) (gdp suffix : String)
    (cgit : Option String) : List String → Option (Except PyErr (List PlanEntry))
  | [] => some (.ok [])
  | addr :: rest =>
    match planGithubAddr api fuel gdp suffix cgit addr with
    | none => none
    | some (.error e) => some (.error e)
    | some (.ok es) =>
      match planGithubList api fuel gdp suffix cgit rest with
      | none => none
      | some (.error e) => some (.error e)
      | some (.ok more) => some (.ok (es ++ more))

/-- The configuration values `main` reads (after `config.get` defaults). -/
structure Config where
  git_data_path : String
  checkout_path : Option String
  cgit_url : Option String
  checkout_suffix : String
  github_repositories : Option (List String)
  repos : Option (List PyDict)

/-- Embedding of the planning phase of `main`: build `archive_plan` from the
GitHub addresses and the ad-hoc records, in that order.  `none` models
non-terminating pagination; `.error` a Python exception aborting `main`
before any entry is archived. -/
def planConfig (api : ApiOracle) (fuel : Nat) (cfg : Config) :
    Option (Except PyErr (List PlanEntry)) :=
  let ghPart : Option (Except PyErr (List PlanEntry)) :=
    match cfg.github_repositories with
    | none => some (.ok [])
    | some addrs =>
      planGithubList api fuel cfg.git_data_path cfg.checkout_suffix cfg.cgit_url addrs
  match ghPart with
  | none => none
  | some (.error e) => some (.error e)
  | some (.ok ghEntries) =>
    match cfg.repos with
    | none => some (.ok ghEntries)
    | some rs =>
      match planAdhoc cfg.git_data_path cfg.checkout_suffix cfg.cgit_url rs with
      | .error e => some (.error e)
      | .ok ad => some (.ok (ghEntries ++ ad))

/-! ## Mirror synchronizer (`mirror`) and plan executor (`main`, execution
phase)

Side effects are recorded as a list of `Effect`s.  Whether a path already
exists and which author date `git for-each-ref` reports are oracles. -/

/-- One observable side effect of the executor. -/
inductive Effect where
  | print (line : String)
  | gitRun (argv : List String)
  | makedirs (dir : String)
  | writeFile (path content : String)
  | materializeCheckouts (git_data_path checkout_path : String)
deriving DecidableEq, Repr

/-- Whether an effect mutates storage (everything except printing). -/
def Effect.isMutation : Effect → Bool
  | .print _ => false
  | .gitRun _ => true
  | .makedirs _ => true
  | .writeFile _ _ => true
  | .materializeCheckouts _ _ => true

/-- The exact argv `mirror` passes to `git for-each-ref`; note the literal
single quotes inside the `--format=` argument. -/
def forEachRefArgv (path : String) : List String :=
  ["git", "-C", path, "for-each-ref", "--sort=-authordate", "--count=1",
   "--format='%(authordate:iso8601)'"]

/-- Whether `pre` is a prefix of `s`, on character lists. -/
def strStartsWith (s pre : String) : Bool := pre.data.isPrefixOf s.data

/-- The string `s` without its first `n` characters. -/
def strDrop (s : String) (n : Nat) : String := ⟨s.data.drop n⟩

/-- The value git receives for `--format`: the argv element after the
`--format=` option name, verbatim (no shell strips the quotes). -/
def gitFormatValue (argv : List String) : String :=
  match argv.find? (fun a => strStartsWith a "--format=") with
  | some a => strDrop a "--format=".length
  | none => ""

/-- Models `git for-each-ref --sort=-authordate --count=1 --format=<fmt>` on
a mirror whose most recently authored ref tip has ISO-8601 author date
`authordate`: the format value with `%(authordate:iso8601)` substituted,
plus the newline for-each-ref prints after the (single) ref. -/
def forEachRefStdout (fmt authordate : String) : String :=
  pyReplace fmt "%(authordate:iso8601)" authordate ++ "\n"

/-- The bytes `mirror` writes to `<path>/info/web/last-modified`. -/
def lastModifiedBytes (path authordate : String) : String :=
  forEachRefStdout (gitFormatValue (forEachRefArgv path)) authordate

/-- Embedding of `mirror(url, path)` when no exception is raised: update or
clone, create the web directory, stamp the last-modified marker.
`pathExists` models `os.path.exists`, `authorDateOf` the newest author
date git reports for the mirror at a path. -/
def mirrorEffects (pathExists : String → Bool) (authorDateOf : String → String)
    (url path : String) : List Effect :=
  (if pathExists path then
    [.gitRun ["git", "-C", path, "remote", "update", "--prune"]]
   else
    [.gitRun ["git", "clone", "--bare", "--mirror", url, path]]) ++
  [.makedirs (osPathJoin (osPathJoin path "info") "web"),
   .gitRun (forEachRefArgv path),
   .writeFile (osPathJoin (osPathJoin (osPathJoin path "info") "web") "last-modified")
     (lastModifiedBytes path (authorDateOf path))]

/-- The effects of processing one plan entry in the non-dry branch of
`main`: `mirror(url, path)` then writing the rendered metadata to
`<path>/cgitrc`. -/
def entryEffects (pathExists : String → Bool) (authorDateOf : String → String)
    (e : PlanEntry) : List Effect :=
  mirrorEffects pathExists authorDateOf e.url.toStr e.path ++
    [.writeFile (osPathJoin e.path "cgitrc") e.metadata]

/-- The `else` branch loop of `main`: process entries in order; `syncExc`
models a Python exception raised inside `mirror` for an entry (spec
`SyncError`), which propagates uncaught and aborts the loop, the failing
entry contributing no further effects. -/
def runPlan (pathExists : String → Bool) (authorDateOf : String → String)
    (syncExc : PlanEntry → Option PyErr) :
    List PlanEntry → List Effect × Option PyErr
  | [] => ([], none)
  | e :: rest =>
    match syncExc e with
    | some err => ([], some err)
    | none =>
      let pr := runPlan pathExists authorDateOf syncExc rest
      (entryEffects pathExists authorDateOf e ++ pr.1, pr.2)

/-- The dry-run line `"""%s (%s) -> %s""" % (repo["full_name"], url, path)`
for one entry. -/
def dryRunLine (e : PlanEntry) : Except PyErr String :=
  match dictGet e.repo "full_name" with
  | .error err => .error err
  | .ok fnv => .ok (fnv.toStr ++ " (" ++ e.url.toStr ++ ") -> " ++ e.path)

/-- The dry-run branch of `main`: print one line per entry (a `KeyError`
from the subscript would propagate). -/
def dryLoop : List PlanEntry → List Effect × Option PyErr
  | [] => ([], none)
  | e :: rest =>
    match dryRunLine e with
    | .error err => ([], some err)
    | .ok line =>
      let pr := dryLoop rest
      (.print line :: pr.1, pr.2)

/-- The `full_name` value of a plan entry's descriptor (meaningful under a
presence hypothesis; Python would raise where this defaults). -/
def entryFullName (e : PlanEntry) : PyVal :=
  match dictGet e.repo "full_name" with
  | .ok v => v
  | .error _ => .vnone

/-- Embedding of the execution phase of `main`: in dry-run mode print the
plan and stop; otherwise mirror every entry, write its metadata, and
finally (when a checkout root is configured and nothing was raised)
invoke the checkout materializer over the mirror tree. -/
def executeMain (pathExists : String → Bool) (authorDateOf : String → String)
    (syncExc : PlanEntry → Option PyErr) (gdp : String) (cp : Option String)
    (dryRun : Bool) (plan : List PlanEntry) : List Effect × Option PyErr :=
  if dryRun then dryLoop plan
  else
    let pr := runPlan pathExists authorDateOf syncExc plan
    match pr.2 with
    | some e => (pr.1, some e)
    | none =>
      (pr.1 ++ (match cp with
                | some c => [.materializeCheckouts gdp c]
                | none => []), none)

/-! ## Checkout materializer (`find_repos`, `clone`) -/

/-- A directory tree: a directory (flagged when `git rev-parse
--is-bare-repository` would answer `true` in it) or a plain file. -/
inductive FsNode where
  | dir (bare : Bool) (children : List (String × FsNode))
  | file

/-- One `os.scandir` entry: its name, its path, and the tree below it. -/
structure DirEntry where
  entryName : String
  path : String
  node : FsNode

/-- `entry.is_dir()`. -/
def DirEntry.isDirB (e : DirEntry) : Bool :=
  match e.node with
  | .dir _ _ => true
  | .file => false

/-- Python attribute access on an `os.DirEntry`: only `name` and `path`
exist; anything else raises `AttributeError`. -/
def DirEntry.getAttrStr (e : DirEntry) (attr : String) : Except PyErr String :=
  if attr == "name" then .ok e.entryName
  else if attr == "path" then .ok e.path
  else .error (.attributeError attr)

/-- `os.scandir(dirPath)` over the modelled tree. -/
def scandir (dirPath : String) : FsNode → List DirEntry
  | .dir _ children => children.map (fun c => ⟨c.1, osPathJoin dirPath c.1, c.2⟩)
  | .file => []

/-- Models `is_bare_repo`: what `git rev-parse --is-bare-repository` reports
for the tree node. -/
def is_bare_repo : FsNode → Bool
  | .dir b _ => b
  | .file => false

/-- Embedding of `clone(source, destination)`: pull an existing working
tree, otherwise clone — with the `--bare` flag the source passes. -/
def cloneEffects (isWorkTree : String → Bool) (source destination : String) : List Effect :=
  if isWorkTree destination then
    [.gitRun ["git", "-C", destination, "pull"]]
  else
    [.gitRun ["git", "clone", "--bare", source, destination]]

/-- Embedding of the `for entry in os.scandir(...)` loop of `find_repos`.
The source reads `entry.git_data_path` — an attribute `os.DirEntry` does
not define — so every directory entry raises `AttributeError`; were that
lookup ever to succeed, the recursive call `find_repos(entry.git_data_path)`
would still raise `TypeError` for its missing second argument.  On (the
unreachable) success the result lists the `(source, destination)` clone
pairs. -/
def find_reposEntries (git_data_path checkout_path : String) :
    List DirEntry → Except PyErr (List (String × String))
  | [] => .ok []
  | e :: rest =>
    if e.isDirB then
      match e.getAttrStr "git_data_path" with
      | .error err => .error err
      | .ok p =>
        if is_bare_repo e.node then
          match find_reposEntries git_data_path checkout_path rest with
          | .error err => .error err
          | .ok more => .ok ((p, pyReplace p git_data_path checkout_path) :: more)
        else .error (.typeError "find_repos() missing 1 required positional argument")
    else find_reposEntries git_data_path checkout_path rest

/-- Embedding of `find_repos(git_data_path, checkout_path)` over the tree
rooted at the mirror root. -/
def find_repos (git_data_path checkout_path : String) (root : FsNode) :
    Except PyErr (List (String × String)) :=
  find_reposEntries git_data_path checkout_path (scandir git_data_path root)

/-- Whether a render result is a raised `KeyError`. -/
def isKeyError : Except PyErr String → Bool
  | .error (.keyError _) => true
  | _ => false

/-- The value under key `k`, when present, is a string (the shape of the
string-valued descriptor fields; vacuously true when `k` is absent). -/
def keyStrOrMissing (d : PyDict) (k : String) : Bool :=
  match d.find? (fun kv => kv.1 == k) with
  | some kv => match kv.2 with
    | .vstr _ => true
    | _ => false
  | none => true

/-- The value under key `k`, when present, is a string or `None` (the shape
of the nullable descriptor fields; vacuously true when `k` is absent). -/
def keyOptStrOrMissing (d : PyDict) (k : String) : Bool :=
  match d.find? (fun kv => kv.1 == k) with
  | some kv => match kv.2 with
    | .vstr _ => true
    | .vnone => true
    | _ => false
  | none => true

/-! ## Concrete instances used to evaluate the theorems -/

/-- A catalog oracle that is never consulted. -/
def trivApi : ApiOracle := ⟨fun _ _ => [], fun _ => fun _ => ([], none)⟩

/-- An ad-hoc record for `acme/widget`, upstream `a.example`. -/
def adhocWidgetA : PyDict :=
  [("owner", .vstr "acme"), ("name", .vstr "widget"),
   ("clone_url", .vstr "https://a.example/w.git"),
   ("description", .vnone), ("homepage", .vnone)]

/-- The same repository configured a second time, upstream `b.example`. -/
def adhocWidgetB : PyDict :=
  [("owner", .vstr "acme"), ("name", .vstr "widget"),
   ("clone_url", .vstr "https://b.example/w.git"),
   ("description", .vnone), ("homepage", .vnone)]

/-- A configuration whose two (distinct) ad-hoc entries resolve to the same
local path `/srv/git/acme/widget`. -/
def dupConfig : Config :=
  { git_data_path := "/srv/git/", checkout_path := none, cgit_url := none,
    checkout_suffix := "", github_repositories := none,
    repos := some [adhocWidgetA, adhocWidgetB] }

/-- A two-page upstream listing: page 1 holds a non-fork and a fork and
announces page 2; page 2 holds one non-fork and is the last page. -/
def demoPages : PageFn := fun p =>
  if p = 1 then
    ([[("full_name", .vstr "acme/widget"), ("fork", .vbool false)],
      [("full_name", .vstr "acme/widget-fork"), ("fork", .vbool true)]], some 2)
  else if p = 2 then
    ([[("full_name", .vstr "acme/gadget"), ("fork", .vbool false)]], none)
  else ([], none)

/-- A plan entry for `acme/widget` at `/srv/git/acme/widget`. -/
def demoEntry1 : PlanEntry :=
  { repo := [("full_name", .vstr "acme/widget"), ("fork", .vbool false)],
    metadata := "clone-url=https://a.example/w.git\ndesc=Mysterious Project\nname=widget\n",
    url := .vstr "https://a.example/w.git", path := "/srv/git/acme/widget" }

/-- A plan entry for `acme/gadget` at `/srv/git/acme/gadget`. -/
def demoEntry2 : PlanEntry :=
  { repo := [("full_name", .vstr "acme/gadget"), ("fork", .vbool false)],
    metadata := "clone-url=https://a.example/g.git\ndesc=Mysterious Project\nname=gadget\n",
    url := .vstr "https://a.example/g.git", path := "/srv/git/acme/gadget" }

/-- A sync oracle under which the first demo entry's `mirror` raises (the
simulated network error of the specification's scenario) and every other
entry syncs fine. -/
def demoSyncExc : PlanEntry → Option PyErr := fun e =>
  if e.path == demoEntry1.path then some (.osError "could not resolve host") else none

/-- A path-exists oracle for an empty storage root. -/
def noPathExists : String → Bool := fun _ => false

/-- An author-date oracle: every mirror's newest ref tip is authored at a
fixed ISO-8601 instant. -/
def demoAuthorDate : String → String := fun _ => "2018-07-01 10:00:00 +0200"

/-- A mirror tree holding exactly one bare mirror, `widget`, directly under
the mirror root. -/
def demoTree : FsNode := .dir false [("widget", .dir true [])]

/-- An ad-hoc record (as a TOML table may well be written) that carries no
`description` and no `homepage` key. -/
def bareAdhocRecord : PyDict :=
  [("owner", .vstr "acme"), ("name", .vstr "widget"),
   ("full_name", .vstr "acme/widget"),
   ("clone_url", .vstr "https://a.example/w.git")]

/-! ## Basic dictionary lemmas -/

theorem dictGet_toDict_full_name (d : Descriptor) :
    dictGet d.toDict "full_name" = .ok (.vstr d.full_name) := rfl

theorem dictGet_toDict_clone_url (d : Descriptor) :
    dictGet d.toDict "clone_url" = .ok (.vstr d.clone_url) := rfl

theorem dictGet_toDict_description (d : Descriptor) :
    dictGet d.toDict "description" = .ok (optVal d.description) := rfl

theorem dictGet_toDict_homepage (d : Descriptor) :
    dictGet d.toDict "homepage" = .ok (optVal d.homepage) := rfl

theorem dictGet_toDict_name (d : Descriptor) :
    dictGet d.toDict "name" = .ok (.vstr d.name) := rfl

theorem dictGet_of_hasKey_false (d : PyDict) (k : String) (h : hasKey d k = false) :
    dictGet d k = .error (.keyError k) := by
  unfold dictGet
  unfold hasKey at h
  cases hf : d.find? (fun kv => kv.1 == k) with
  | none => rfl
  | some kv => rw [hf] at h; simp at h

theorem dictGet_ok_or_keyError (d : PyDict) (k : String) :
    (∃ v, dictGet d k = .ok v) ∨ dictGet d k = .error (.keyError k) := by
  unfold dictGet
  cases d.find? (fun kv => kv.1 == k) with
  | none => exact Or.inr rfl
  | some kv => exact Or.inl ⟨kv.2, rfl⟩

theorem dictGet_hasKey_true (d : PyDict) (k : String) (h : hasKey d k = true) :
    ∃ v, dictGet d k = .ok v := by
  unfold dictGet
  unfold hasKey at h
  cases hf : d.find? (fun kv => kv.1 == k) with
  | none => rw [hf] at h; simp at h
  | some kv => exact ⟨kv.2, rfl⟩

theorem keyStrOrMissing_ok (d : PyDict) (k : String) (h : keyStrOrMissing d k = true)
    (v : PyVal) (hv : dictGet d k = .ok v) : ∃ s, v = .vstr s := by
  unfold keyStrOrMissing at h
  unfold dictGet at hv
  cases hf : d.find? (fun kv => kv.1 == k) with
  | none => rw [hf] at hv; simp at hv
  | some kv =>
    rw [hf] at h hv
    simp only [Except.ok.injEq] at hv
    simp only at h
    cases hkv : kv.2 with
    | vstr s => exact ⟨s, by rw [← hv, hkv]⟩
    | vnone => rw [hkv] at h; simp at h
    | vbool b => rw [hkv] at h; simp at h

theorem keyOptStrOrMissing_ok (d : PyDict) (k : String)
    (h : keyOptStrOrMissing d k = true) (v : PyVal) (hv : dictGet d k = .ok v) :
    v = .vnone ∨ ∃ s, v = .vstr s := by
  unfold keyOptStrOrMissing at h
  unfold dictGet at hv
  cases hf : d.find? (fun kv => kv.1 == k) with
  | none => rw [hf] at hv; simp at hv
  | some kv =>
    rw [hf] at h hv
    simp only [Except.ok.injEq] at hv
    simp only at h
    cases hkv : kv.2 with
    | vstr s => exact Or.inr ⟨s, by rw [← hv, hkv]⟩
    | vnone => exact Or.inl (by rw [← hv, hkv])
    | vbool b => rw [hkv] at h; simp at h

/-! ## C1: the metadata renderer -/

/-- C1: for every repository descriptor and optional browse-URL prefix,
`repo_to_cgitrc` is a pure function producing exactly the newline-terminated
`key=value` lines homepage (only when present and nonempty), clone-url,
desc, name, with the clone-url carrying `<prefix><full_name> <clone_url>`
when a prefix is configured and the clone URL alone otherwise, the fixed
placeholder `Mysterious Project` replacing an absent or empty description,
and embedded newlines removed from the description. -/
theorem repo_to_cgitrc_matches_render (d : Descriptor) (cgit : Option String) :
    repo_to_cgitrc cgit d.toDict = .ok (renderSpec d cgit) := by
  unfold repo_to_cgitrc cloneUrlLine cgitrcTail renderSpec
  rw [dictGet_toDict_full_name, dictGet_toDict_clone_url, dictGet_toDict_description,
    dictGet_toDict_homepage, dictGet_toDict_name]
  cases cgit with
  | none =>
    cases hde : d.description with
    | none =>
      cases hho : d.homepage with
      | none => simp [cgitTruthy, optVal, PyVal.truthy, PyVal.toStr, String.join]
      | some h =>
        by_cases hh : h = "" <;>
          simp [cgitTruthy, optVal, PyVal.truthy, PyVal.toStr, String.join, hh,
            String.append_assoc, String.empty_append]
    | some s =>
      cases hho : d.homepage with
      | none =>
        by_cases hs : s = "" <;>
          simp [cgitTruthy, optVal, PyVal.truthy, PyVal.toStr, pyReplaceNewline,
            String.join, hs, String.append_assoc, String.empty_append]
      | some h =>
        by_cases hs : s = "" <;> by_cases hh : h = "" <;>
          simp [cgitTruthy, optVal, PyVal.truthy, PyVal.toStr, pyReplaceNewline,
            String.join, hs, hh, String.append_assoc, String.empty_append]
  | some p =>
    by_cases hp : p = "" <;>
    · cases hde : d.description with
      | none =>
        cases hho : d.homepage with
        | none =>
          simp [cgitTruthy, cgitStr, pyAddStr, optVal, PyVal.truthy, PyVal.toStr,
            String.join, hp, String.append_assoc, String.empty_append]
        | some h =>
          by_cases hh : h = "" <;>
            simp [cgitTruthy, cgitStr, pyAddStr, optVal, PyVal.truthy, PyVal.toStr,
              String.join, hp, hh, String.append_assoc, String.empty_append]
      | some s =>
        cases hho : d.homepage with
        | none =>
          by_cases hs : s = "" <;>
            simp [cgitTruthy, cgitStr, pyAddStr, optVal, PyVal.truthy, PyVal.toStr,
              pyReplaceNewline, String.join, hp, hs, String.append_assoc, String.empty_append]
        | some h =>
          by_cases hs : s = "" <;> by_cases hh : h = "" <;>
            simp [cgitTruthy, cgitStr, pyAddStr, optVal, PyVal.truthy, PyVal.toStr,
              pyReplaceNewline, String.join, hp, hs, hh, String.append_assoc, String.empty_append]

/-! ## C9: rendering is partial over dicts missing keys -/

theorem cloneUrlLine_classify (cgit : Option String) (d : PyDict)
    (hfn : keyStrOrMissing d "full_name" = true) :
    (∃ s, cloneUrlLine cgit d = .ok s) ∨
      (∃ k, cloneUrlLine cgit d = .error (.keyError k)) := by
  unfold cloneUrlLine
  by_cases hc : cgitTruthy cgit = true
  · simp only [hc, if_true]
    rcases dictGet_ok_or_keyError d "full_name" with ⟨v, hv⟩ | hv
    · obtain ⟨s, rfl⟩ := keyStrOrMissing_ok d _ hfn v hv
      rw [hv]
      rcases dictGet_ok_or_keyError d "clone_url" with ⟨cv, hcv⟩ | hcv
      · rw [hcv]; exact Or.inl ⟨_, rfl⟩
      · rw [hcv]; exact Or.inr ⟨_, rfl⟩
    · rw [hv]; exact Or.inr ⟨_, rfl⟩
  · simp only [Bool.not_eq_true] at hc
    simp only [hc, Bool.false_eq_true, if_false]
    rcases dictGet_ok_or_keyError d "clone_url" with ⟨cv, hcv⟩ | hcv
    · rw [hcv]; exact Or.inl ⟨_, rfl⟩
    · rw [hcv]; exact Or.inr ⟨_, rfl⟩

theorem cgitrcTail_keyError (d : PyDict) (clone_url : String)
    (hde : keyOptStrOrMissing d "description" = true)
    (hmiss : hasKey d "description" = false ∨ hasKey d "homepage" = false) :
    ∃ k, cgitrcTail d clone_url = .error (.keyError k) := by
  unfold cgitrcTail
  rcases hmiss with hm | hm
  · rw [dictGet_of_hasKey_false d _ hm]; exact ⟨_, rfl⟩
  · rcases dictGet_ok_or_keyError d "description" with ⟨v, hv⟩ | hv
    · rw [hv]
      rcases keyOptStrOrMissing_ok d _ hde v hv with rfl | ⟨s, rfl⟩
      · simp only [PyVal.truthy, Bool.false_eq_true, if_false]
        rw [dictGet_of_hasKey_false d _ hm]
        exact ⟨_, rfl⟩
      · by_cases hs : s = ""
        · subst hs
          simp only [PyVal.truthy, bne_self_eq_false, Bool.false_eq_true, if_false]
          rw [dictGet_of_hasKey_false d _ hm]
          exact ⟨_, rfl⟩
        · simp only [PyVal.truthy, pyReplaceNewline, bne_iff_ne, ne_eq, hs,
            not_false_eq_true, if_true]
          rw [dictGet_of_hasKey_false d _ hm]
          exact ⟨_, rfl⟩
    · rw [hv]; exact ⟨_, rfl⟩

/-- C9: for every descriptor dict that lacks the `description` key or the
`homepage` key entirely (with the keys that are present carrying values of
the descriptor's shape), `repo_to_cgitrc` raises a `KeyError` instead of
producing output: the placeholder fallback and the homepage omission apply
only to keys present with a null or empty value. -/
theorem repo_to_cgitrc_missing_key_raises (cgit : Option String) (d : PyDict)
    (hfn : keyStrOrMissing d "full_name" = true)
    (hde : keyOptStrOrMissing d "description" = true)
    (hmiss : hasKey d "description" = false ∨ hasKey d "homepage" = false) :
    isKeyError (repo_to_cgitrc cgit d) = true := by
  unfold repo_to_cgitrc
  rcases cloneUrlLine_classify cgit d hfn with ⟨s, hs⟩ | ⟨k, hk⟩
  · rw [hs]
    show isKeyError (cgitrcTail d s) = true
    obtain ⟨k, hk⟩ := cgitrcTail_keyError d s hde hmiss
    rw [hk]; rfl
  · rw [hk]; rfl

/-- C9 witness: an ad-hoc record with `owner`, `name`, `full_name` and
`clone_url` but no `description`/`homepage` keys makes the renderer raise. -/
theorem repo_to_cgitrc_missing_key_raises_witness :
    isKeyError (repo_to_cgitrc none bareAdhocRecord) = true :=
  repo_to_cgitrc_missing_key_raises none bareAdhocRecord (by decide) (by decide)
    (Or.inl (by decide))

/-! ## C3, C4: pagination -/

theorem getReposLoop_eq_visited (pages : PageFn) :
    ∀ (fuel : Nat) (data : List PyDict) (next : Option Nat),
      getReposLoop pages fuel data next =
        (visitedLoop pages fuel next).map
          (fun ps => data ++ (ps.map (fun p => (pages p).1)).flatten) := by
  intro fuel
  induction fuel with
  | zero =>
    intro data next
    cases next with
    | none => simp [getReposLoop, visitedLoop]
    | some p =>
      by_cases hp : p = 0
      · subst hp; simp [getReposLoop, visitedLoop]
      · simp [getReposLoop, visitedLoop, hp]
  | succ f ih =>
    intro data next
    cases next with
    | none => simp [getReposLoop, visitedLoop]
    | some p =>
      by_cases hp : p = 0
      · subst hp; simp [getReposLoop, visitedLoop]
      · simp only [getReposLoop, visitedLoop, hp, if_false]
        rw [ih]
        cases hv : visitedLoop pages f (pages p).2 with
        | none => simp
        | some l => simp [List.append_assoc]

theorem get_repos_eq_visitedPages (pages : PageFn) (fuel : Nat) :
    get_repos pages fuel =
      (visitedPages pages fuel).map
        (fun ps => filterNotFork ((ps.map (fun p => (pages p).1)).flatten)) := by
  cases hv : visitedLoop pages fuel (pages 1).2 with
  | none => simp [get_repos, visitedPages, getReposLoop_eq_visited, hv]
  | some l => simp [get_repos, visitedPages, getReposLoop_eq_visited, hv]

theorem filterNotFork_eq_filter (l : List PyDict)
    (h : ∀ r ∈ l, hasKey r "fork" = true) :
    filterNotFork l = .ok (l.filter (fun r => !forkTruthy r)) := by
  induction l with
  | nil => rfl
  | cons r rest ih =>
    obtain ⟨v, hv⟩ := dictGet_hasKey_true r "fork" (h r (by simp))
    have hrest := ih (fun x hx => h x (by simp [hx]))
    unfold filterNotFork
    rw [hv, hrest]
    have hft : forkTruthy r = v.truthy := by unfold forkTruthy; rw [hv]
    cases hvt : v.truthy with
    | true => simp [List.filter_cons, hft, hvt]
    | false => simp [List.filter_cons, hft, hvt]

/-- C3: for every group reference, `get_repos` returns exactly the
concatenation of the pages delivered along the upstream's continuation
cursor with every fork-flagged descriptor removed; no descriptor of the
result is fork-flagged, and when the upstream delivers globally
duplicate-free data the result carries no duplicate descriptors. -/
theorem get_repos_union_noforks (pages : PageFn) (fuel : Nat) (ps : List Nat)
    (hterm : visitedPages pages fuel = some ps)
    (hfork : ∀ r ∈ (ps.map (fun p => (pages p).1)).flatten, hasKey r "fork" = true) :
    get_repos pages fuel =
      some (.ok (((ps.map (fun p => (pages p).1)).flatten).filter
        (fun r => !forkTruthy r))) ∧
    (∀ r ∈ ((ps.map (fun p => (pages p).1)).flatten).filter (fun r => !forkTruthy r),
      forkTruthy r = false) ∧
    (((ps.map (fun p => (pages p).1)).flatten).Nodup →
      (((ps.map (fun p => (pages p).1)).flatten).filter (fun r => !forkTruthy r)).Nodup) := by
  refine ⟨?_, ?_, ?_⟩
  · rw [get_repos_eq_visitedPages, hterm]
    simp [filterNotFork_eq_filter _ hfork]
  · intro r hr
    have := List.of_mem_filter hr
    simpa using this
  · intro hnd
    exact hnd.filter _

/-- C3 witness: a two-page listing with one fork yields the two non-fork
descriptors. -/
theorem get_repos_union_noforks_witness :
    get_repos demoPages 5 =
      some (.ok ((([1, 2].map (fun p => (demoPages p).1)).flatten).filter
        (fun r => !forkTruthy r))) :=
  (get_repos_union_noforks demoPages 5 [1, 2] (by decide) (by decide)).1

theorem getReposLoop_cyclic_none :
    ∀ (fuel : Nat) (data : List PyDict),
      getReposLoop cyclicPages fuel data (some 1) = none := by
  intro fuel
  induction fuel with
  | zero => intro data; simp [getReposLoop]
  | succ f ih => intro data; simp [getReposLoop, cyclicPages]; exact ih _

/-- C4 counterexample: under an upstream whose continuation signal is
cyclic (every response announces a next page), `get_repos` never completes,
for any number of page fetches — it neither terminates nor fails with any
error, contradicting the claimed page-count ceiling. -/
theorem get_repos_cyclic_never_completes :
    ¬ ∃ fuel r, get_repos cyclicPages fuel = some r := by
  rintro ⟨fuel, r, h⟩
  have hn : get_repos cyclicPages fuel = none := by
    simp [get_repos, cyclicPages, getReposLoop_cyclic_none]
  rw [hn] at h
  cases h

/-- C4 (amended): the pagination loop of `get_repos` has no page-count
ceiling and no failure path: it completes within a given number of page
fetches exactly when the chain of continuation cursors reaches a falsy
cursor within that many fetches, so a cyclic or always-truthy signal makes
it loop forever rather than fail. -/
theorem get_repos_completes_iff_cursor_ends (pages : PageFn) (fuel : Nat) :
    (get_repos pages fuel).isSome = (visitedPages pages fuel).isSome := by
  rw [get_repos_eq_visitedPages]
  cases visitedPages pages fuel <;> simp

/-! ## C2: path collisions and the planner -/

/-- C2 counterexample: a configuration with two distinct ad-hoc entries for
the same `full_name` (different upstream URLs) plans successfully — no
`PathCollisionError` exists — and both produced entries resolve to the same
local path `/srv/git/acme/widget`. -/
theorem planConfig_collision_plans_successfully :
    (planConfig trivApi 0 dupConfig).map (Except.map (fun l => l.map PlanEntry.path)) =
      some (.ok ["/srv/git/acme/widget", "/srv/git/acme/widget"]) ∧
    (planConfig trivApi 0 dupConfig).map (Except.map (fun l => l.map PlanEntry.url)) =
      some (.ok [.vstr "https://a.example/w.git", .vstr "https://b.example/w.git"]) := by
  constructor <;> rfl

/-- C2 (amended): the ad-hoc local-path derivation is injective over
`full_name` for a fixed data path and suffix — distinct full names never
collide — but the planner performs no collision check, so a configuration
that references the same `full_name` twice plans successfully with both
entries at one path (see the counterexample) instead of failing. -/
theorem adhocLocalPath_injective_on_full_name (gdp suffix fn₁ fn₂ : String)
    (h : fn₁ ≠ fn₂) : adhocLocalPath gdp fn₁ suffix ≠ adhocLocalPath gdp fn₂ suffix := by
  intro he
  apply h
  have hd := congrArg String.data he
  simp only [adhocLocalPath, String.data_append] at hd
  exact String.ext (List.append_cancel_left (List.append_cancel_right hd))

/-- C2 witness: two distinct full names under the same root get distinct
paths. -/
theorem adhocLocalPath_injective_on_full_name_witness :
    adhocLocalPath "/srv/git/" "acme/widget" "" ≠ adhocLocalPath "/srv/git/" "acme/gadget" "" :=
  adhocLocalPath_injective_on_full_name "/srv/git/" "" "acme/widget" "acme/gadget" (by decide)

/-! ## C10: ad-hoc concatenation versus catalog join -/

theorem singleton_isPrefix_iff (a : Char) (l : List Char) :
    [a] <+: l ↔ l.head? = some a := by
  constructor
  · rintro ⟨t, ht⟩
    cases l with
    | nil => simp at ht
    | cons b tl => simp at ht; simp [ht.1]
  · intro h
    cases l with
    | nil => simp at h
    | cons b tl => simp at h; subst h; exact ⟨tl, rfl⟩

/-- C10: for a nonempty data path and a relative `full_name ++ suffix`, the
ad-hoc planner path is the raw concatenation with no separator inserted,
and it both lies under the data path and coincides with the joining,
separator-inserting catalog path for the same full name exactly when the
data path ends with the path separator. -/
theorem adhoc_vs_catalog_path (gdp fn suffix : String) (h0 : gdp ≠ "")
    (h1 : startsWithSep (fn ++ suffix) = false) :
    adhocLocalPath gdp fn suffix = gdp ++ fn ++ suffix ∧
    (underDir gdp (adhocLocalPath gdp fn suffix) = true ↔ endsWithSep gdp = true) ∧
    (adhocLocalPath gdp fn suffix = catalogLocalPath gdp fn suffix ↔ endsWithSep gdp = true) := by
  have hbeq : (gdp == "") = false := by simp [h0]
  have hdata : (adhocLocalPath gdp fn suffix).data
      = gdp.data ++ (fn.data ++ suffix.data) := by
    simp [adhocLocalPath, String.data_append]
  have hstart : ((fn ++ suffix)).data.head? ≠ some '/' := by
    unfold startsWithSep at h1
    simpa using h1
  refine ⟨rfl, ?_, ?_⟩
  · cases hend : endsWithSep gdp with
    | true =>
      simp only [hend, iff_true]
      unfold underDir
      rw [hend]
      simp only [if_true]
      rw [List.isPrefixOf_iff_prefix, hdata]
      exact List.prefix_append _ _
    | false =>
      simp only [hend, Bool.false_eq_true, iff_false]
      intro hu
      unfold underDir at hu
      rw [hend] at hu
      simp only [Bool.false_eq_true, if_false] at hu
      rw [List.isPrefixOf_iff_prefix, hdata, String.data_append] at hu
      rw [List.prefix_append_right_inj] at hu
      have hh : ((fn ++ suffix)).data.head? = some '/' := by
        have := (singleton_isPrefix_iff '/' (fn.data ++ suffix.data)).mp hu
        simpa [String.data_append] using this
      exact hstart hh
  · cases hend : endsWithSep gdp with
    | true =>
      simp only [hend, iff_true]
      unfold catalogLocalPath osPathJoin
      simp only [h1, Bool.false_eq_true, if_false, hbeq, hend, Bool.false_or, if_true]
      unfold adhocLocalPath
      rw [String.append_assoc]
    | false =>
      simp only [hend, Bool.false_eq_true, iff_false]
      intro he
      unfold catalogLocalPath osPathJoin at he
      simp only [h1, Bool.false_eq_true, if_false, hbeq, hend, Bool.or_self] at he
      have hl := congrArg String.length he
      simp [adhocLocalPath, String.length_append,
        show ("/" : String).length = 1 from rfl] at hl
      omega

/-- C10 witness: with the trailing-slash default root `/srv/git/` the two
derivations agree. -/
theorem adhoc_vs_catalog_path_witness :
    adhocLocalPath "/srv/git/" "acme/widget" "" = catalogLocalPath "/srv/git/" "acme/widget" "" ↔
      endsWithSep "/srv/git/" = true :=
  (adhoc_vs_catalog_path "/srv/git/" "acme/widget" "" (by decide) (by decide)).2.2

/-! ## C5: the last-modified marker -/

/-- C5: the single quotes in the source's `--format='%(authordate:iso8601)'`
argument reach git verbatim (no shell is involved), so the marker file
receives the author date wrapped in quotes plus a trailing newline, not the
raw ISO-8601 date bytes the claim describes. -/
theorem last_modified_marker_quoted :
    lastModifiedBytes "/srv/git/acme/widget" "2018-07-01 10:00:00 +0200" =
      "'2018-07-01 10:00:00 +0200'\n" ∧
    lastModifiedBytes "/srv/git/acme/widget" "2018-07-01 10:00:00 +0200" ≠
      "2018-07-01 10:00:00 +0200" := by
  constructor
  · rfl
  · decide

/-! ## C7: checkout materialization -/

/-- C7: `find_repos` reads `entry.git_data_path`, an attribute `os.DirEntry`
does not define, so on a mirror tree containing one bare mirror it raises
`AttributeError` and produces no checkout at all. -/
theorem find_repos_raises_attribute_error :
    find_repos "/srv/git" "/srv/checkout" demoTree =
      .error (.attributeError "git_data_path") := rfl

/-! ## C6, C8: the plan executor -/

theorem runPlan_all_ok (pathExists : String → Bool) (authorDateOf : String → String)
    (syncExc : PlanEntry → Option PyErr) (plan : List PlanEntry)
    (h : ∀ e ∈ plan, syncExc e = none) :
    runPlan pathExists authorDateOf syncExc plan =
      ((plan.map (entryEffects pathExists authorDateOf)).flatten, none) := by
  induction plan with
  | nil => rfl
  | cons e rest ih =>
    have he : syncExc e = none := h e (by simp)
    unfold runPlan
    rw [he, ih (fun x hx => h x (by simp [hx]))]
    simp

theorem dropWhile_head_neg {α : Type} (p : α → Bool) (l : List α) (f : α) (rest : List α)
    (h : l.dropWhile p = f :: rest) : p f = false := by
  induction l with
  | nil => simp [List.dropWhile] at h
  | cons e tail ih =>
    rw [List.dropWhile_cons] at h
    by_cases hp : p e = true
    · simp only [hp, if_true] at h; exact ih h
    · simp only [hp, if_false] at h
      injection h with h1 h2
      subst h1
      simpa using hp

theorem runPlan_first_fail (pathExists : String → Bool) (authorDateOf : String → String)
    (syncExc : PlanEntry → Option PyErr) (plan : List PlanEntry) (f : PlanEntry)
    (rest : List PlanEntry)
    (h : plan.dropWhile (fun e => (syncExc e).isNone) = f :: rest) :
    runPlan pathExists authorDateOf syncExc plan =
      (((plan.takeWhile (fun e => (syncExc e).isNone)).map
        (entryEffects pathExists authorDateOf)).flatten, syncExc f) := by
  induction plan with
  | nil => simp [List.dropWhile] at h
  | cons e tail ih =>
    rw [List.dropWhile_cons] at h
    by_cases hp : ((syncExc e).isNone = true)
    · simp only [hp, if_true] at h
      have hnone : syncExc e = none := Option.isNone_iff_eq_none.mp hp
      unfold runPlan
      rw [hnone, ih h, List.takeWhile_cons]
      simp [hp]
    · simp only [hp, if_false] at h
      injection h with h1 h2
      subst h1
      cases hse : syncExc e with
      | none => rw [hse] at hp; simp at hp
      | some err =>
        unfold runPlan
        rw [hse, List.takeWhile_cons]
        simp [hp, hse]

/-- C6 (amended): the executor is fail-fast, not failure-isolating.  When
every entry's sync runs without raising, all entries are processed in order
and the checkout phase follows; but when some entry's sync raises, exactly
the entries before the first failing one are mirrored and get their
metadata written, the failing entry's exception propagates, the remaining
entries are never attempted, and no success/failure counts are produced. -/
theorem executeMain_fail_fast (pathExists : String → Bool) (authorDateOf : String → String)
    (syncExc : PlanEntry → Option PyErr) (gdp : String) (cp : Option String)
    (plan : List PlanEntry) :
    (plan.all (fun e => (syncExc e).isNone) = true →
      executeMain pathExists authorDateOf syncExc gdp cp false plan =
        ((plan.map (entryEffects pathExists authorDateOf)).flatten ++
          (match cp with
           | some c => [Effect.materializeCheckouts gdp c]
           | none => []), none)) ∧
    (∀ f rest, plan.dropWhile (fun e => (syncExc e).isNone) = f :: rest →
      executeMain pathExists authorDateOf syncExc gdp cp false plan =
        (((plan.takeWhile (fun e => (syncExc e).isNone)).map
          (entryEffects pathExists authorDateOf)).flatten, syncExc f)) := by
  constructor
  · intro hall
    have h : ∀ e ∈ plan, syncExc e = none := by
      intro e he
      exact Option.isNone_iff_eq_none.mp (List.all_eq_true.mp hall e he)
    have hr := runPlan_all_ok pathExists authorDateOf syncExc plan h
    simp [executeMain, hr]
  · intro f rest h
    have hpf : (syncExc f).isNone = false :=
      dropWhile_head_neg (fun e => (syncExc e).isNone) plan f rest h
    have hr := runPlan_first_fail pathExists authorDateOf syncExc plan f rest h
    cases hse : syncExc f with
    | none => rw [hse] at hpf; simp at hpf
    | some err =>
      rw [hse] at hr
      simp [executeMain, hr, hse]

/-- C6 counterexample: with a two-entry plan whose first entry's sync
raises a (simulated network) error, the run aborts with that error, no
effect is performed, and in particular the second entry's metadata file is
never written — the remaining entry is not attempted and no success or
failure counts are reported. -/
theorem executeMain_abort_on_first_sync_error :
    executeMain noPathExists demoAuthorDate demoSyncExc "/srv/git/" none false
        [demoEntry1, demoEntry2] = ([], some (.osError "could not resolve host")) ∧
    Effect.writeFile (osPathJoin demoEntry2.path "cgitrc") demoEntry2.metadata ∉
      (executeMain noPathExists demoAuthorDate demoSyncExc "/srv/git/" none false
        [demoEntry1, demoEntry2]).1 := by
  refine ⟨rfl, ?_⟩
  decide

/-- C6 witness: the fail-fast characterization applied to the two-entry
demo plan whose first sync raises. -/
theorem executeMain_fail_fast_witness :
    executeMain noPathExists demoAuthorDate demoSyncExc "/srv/git/" none false
        [demoEntry1, demoEntry2] =
      ((([demoEntry1, demoEntry2].takeWhile (fun e => (demoSyncExc e).isNone)).map
        (entryEffects noPathExists demoAuthorDate)).flatten, demoSyncExc demoEntry1) :=
  (executeMain_fail_fast noPathExists demoAuthorDate demoSyncExc "/srv/git/" none
    [demoEntry1, demoEntry2]).2 demoEntry1 [demoEntry2] (by decide)

theorem dryLoop_eq_map (plan : List PlanEntry)
    (h : ∀ e ∈ plan, hasKey e.repo "full_name" = true) :
    dryLoop plan = (plan.map (fun e =>
      Effect.print ((entryFullName e).toStr ++ " (" ++ e.url.toStr ++ ") -> " ++ e.path)),
      none) := by
  induction plan with
  | nil => rfl
  | cons e rest ih =>
    obtain ⟨v, hv⟩ := dictGet_hasKey_true e.repo "full_name" (h e (by simp))
    have hfn : entryFullName e = v := by unfold entryFullName; rw [hv]
    unfold dryLoop dryRunLine
    rw [hv, ih (fun x hx => h x (by simp [hx]))]
    simp [hfn]

/-- C8: in dry-run mode the executor emits exactly the line
`<full_name> (<remote_url>) -> <local_path>` for every plan entry, raises
nothing, and performs no storage-mutating effect: no git invocation,
directory creation, file write, or checkout materialization. -/
theorem dry_run_prints_plan_only (pathExists : String → Bool) (authorDateOf : String → String)
    (syncExc : PlanEntry → Option PyErr) (gdp : String) (cp : Option String)
    (plan : List PlanEntry)
    (h : ∀ e ∈ plan, hasKey e.repo "full_name" = true) :
    executeMain pathExists authorDateOf syncExc gdp cp true plan =
      (plan.map (fun e =>
        Effect.print ((entryFullName e).toStr ++ " (" ++ e.url.toStr ++ ") -> " ++ e.path)),
       none) ∧
    ∀ eff ∈ (executeMain pathExists authorDateOf syncExc gdp cp true plan).1,
      eff.isMutation = false := by
  have hd := dryLoop_eq_map plan h
  have hex : executeMain pathExists authorDateOf syncExc gdp cp true plan = dryLoop plan := rfl
  constructor
  · rw [hex, hd]
  · intro eff heff
    rw [hex, hd] at heff
    simp at heff
    obtain ⟨e, he, rfl⟩ := heff
    rfl

/-- C8 witness: dry-running the two-entry demo plan prints its two lines
and nothing else. -/
theorem dry_run_prints_plan_only_witness :
    executeMain noPathExists demoAuthorDate demoSyncExc "/srv/git/" none true
        [demoEntry1, demoEntry2] =
      ([demoEntry1, demoEntry2].map (fun e =>
        Effect.print ((entryFullName e).toStr ++ " (" ++ e.url.toStr ++ ") -> " ++ e.path)),
       none) :=
  (dry_run_prints_plan_only noPathExists demoAuthorDate demoSyncExc "/srv/git/" none
    [demoEntry1, demoEntry2] (by decide)).1

end Giternity
